import Mathlib

/-!
Verification of the scroll-position arithmetic and event wiring of
`ofcarousel.js` (OverflowCarousel).  Pixel positions are embedded as
rationals; JS `Math.round` is `round` (round half toward positive
infinity on both); the JS `%` operator on integer-valued numbers is the
truncating remainder `Int.tmod`.
-/

namespace OfCarousel

/-- JS remainder operator `%` on integer-valued numbers: truncating
remainder (result has the sign of the dividend). -/
def jsRem (a b : ℤ) : ℤ := Int.tmod a b

/-- State of the carousel fields read and written by the scroll-position
arithmetic of `ofcarousel.js`: whether `this.viewport` is present, the
step (`_getStep()`: slide width + gap), `_originalCount`, `_peekPx`,
`viewport.scrollLeft`, and the `infinite` option.  `peekPx : ℚ` models a
numeric stored peek; the claims over this state hypothesize comparisons
(`0 ≤ peekPx`, region bounds) that a `NaN` peek fails in JS as well.
The `NaN`-capable stored peek is modeled separately by
`CarouselStateN`. -/
structure CarouselState where
  hasViewport : Bool
  step : ℚ
  originalCount : ℕ
  peekPx : ℚ
  scrollLeft : ℚ
  infinite : Bool
deriving DecidableEq

/-- Embedding of `_getCurrentIndex` (ofcarousel.js lines 604-619): returns
0 when the viewport is missing, when the step is falsy (0) or when
`_originalCount` is falsy (0); in infinite mode rounds the offset from the
first real slide down to a slide count and normalizes with the JS
double-modulo `((raw % n) + n) % n`; in non-infinite mode rounds
`scrollLeft / step` and clamps into `[0, originalCount - 1]`. -/
def getCurrentIndex (s : CarouselState) : ℤ :=
  if !s.hasViewport then 0
  else if s.step = 0 ∨ s.originalCount = 0 then 0
  else if s.infinite then
    let base : ℚ := s.step * s.originalCount - s.peekPx
    let raw : ℤ := round ((s.scrollLeft - base) / s.step)
    jsRem (jsRem raw s.originalCount + s.originalCount) s.originalCount
  else
    let raw : ℤ := round (s.scrollLeft / s.step)
    min ((s.originalCount : ℤ) - 1) (max 0 raw)

/-- Embedding of the debounced scroll-handler body installed by
`_setupScrollJump` (ofcarousel.js lines 429-459): the new `scrollLeft`
after the clone-region teleport check.  `maxReal` and `totalBefore` are
both `step * originalCount` exactly as in the source
(`getMaxRealScroll()` and `step * this._originalCount`). -/
def scrollJumpNewLeft (step : ℚ) (originalCount : ℕ) (peekPx left : ℚ) : ℚ :=
  let maxReal : ℚ := step * originalCount
  let totalBefore : ℚ := step * originalCount
  let realStartLeft : ℚ := totalBefore - peekPx
  let realEndLeft : ℚ := totalBefore + maxReal - peekPx
  if left < realStartLeft then
    let offsetIntoClones := left - realStartLeft
    realStartLeft + maxReal + offsetIntoClones
  else if left > realEndLeft then
    let offsetIntoClones := left - realEndLeft
    realStartLeft + offsetIntoClones
  else
    left

/-- The scroll handler as a state transformation: the handler body only
writes `viewport.scrollLeft`. -/
def scrollHandlerStep (s : CarouselState) : CarouselState :=
  { s with scrollLeft := scrollJumpNewLeft s.step s.originalCount s.peekPx s.scrollLeft }

/-- Embedding of the scroll target computed by `_scrollToIndex`
(ofcarousel.js lines 621-630): clamp the requested index into
`[0, originalCount - 1]`, then `base + step * clampedIndex` where `base`
is `step * originalCount - peekPx` in infinite mode and 0 otherwise. -/
def scrollToIndexTarget (step : ℚ) (originalCount : ℕ) (peekPx : ℚ)
    (infinite : Bool) (index : ℤ) : ℚ :=
  let clampedIndex : ℤ := min ((originalCount : ℤ) - 1) (max 0 index)
  let base : ℚ := if infinite then step * originalCount - peekPx else 0
  base + step * clampedIndex

/-- Embedding of `_handleResize` (ofcarousel.js lines 746-818) as it
affects the scroll position: the current index is read with
`_getCurrentIndex` before `_peekPx` and `_gapPx` (hence the step) are
recomputed for the new layout, and then `_scrollToIndex(currentIndex,
'instant')` scrolls to that index under the new layout.  The recomputed
step and peek are passed as parameters: in the browser they come from the
resized DOM and the re-applied responsive settings. -/
def handleResize (s : CarouselState) (newStep newPeekPx : ℚ) : CarouselState :=
  let currentIndex : ℤ := getCurrentIndex s
  let s2 : CarouselState := { s with step := newStep, peekPx := newPeekPx }
  { s2 with scrollLeft :=
      scrollToIndexTarget newStep s2.originalCount newPeekPx s2.infinite currentIndex }

/-- A slide element of the track: its content identity and its
`aria-hidden` attribute. -/
structure Slide where
  content : ℕ
  ariaHidden : Bool
deriving DecidableEq

/-- Embedding of `cloneNode(true)` followed by
`clone.setAttribute('aria-hidden', 'true')` (lines 257-258, 263-264). -/
def cloneHidden (sl : Slide) : Slide :=
  { sl with ariaHidden := true }

/-- Embedding of the start-fragment loop of `_setupInfiniteLoop` (lines
256-260): for `i = n-1` down to 0, insert a hidden clone of slide `i`
before the first child of the fragment.  Each processed slide is
prepended, and the indices run backwards, so a right fold that conses
mirrors the loop exactly. -/
def buildStartFragment (slides : List Slide) : List Slide :=
  slides.foldr (fun sl acc => cloneHidden sl :: acc) []

/-- Embedding of the end-fragment loop of `_setupInfiniteLoop` (lines
262-266): for `i = 0` to `n-1`, append a hidden clone of slide `i`. -/
def buildEndFragment (slides : List Slide) : List Slide :=
  slides.foldl (fun acc sl => acc ++ [cloneHidden sl]) []

/-- Embedding of the track rewriting done by `_setupInfiniteLoop` (lines
268-269): the start fragment is inserted before the first child of the
track and the end fragment is appended after the last. -/
def setupInfiniteLoopTrack (slides : List Slide) : List Slide :=
  buildStartFragment slides ++ slides ++ buildEndFragment slides

/-- Values of `style.scrollBehavior` occurring in the source: the forced
value `'auto'`, the smooth and instant values used by `scrollTo`, and the
empty inline value. -/
inductive ScrollBehavior
| auto
| smooth
| instant
| empty
deriving DecidableEq

/-- A viewport as touched by the initial position adjustment: its
`scrollLeft` and its inline `style.scrollBehavior`. -/
structure Viewport where
  scrollLeft : ℚ
  scrollBehavior : ScrollBehavior
deriving DecidableEq

/-- Embedding of the initial position adjustment of `_setupInfiniteLoop`
(lines 272-283): if `_getStep() > 0`, save the inline scroll behavior,
force it to `'auto'`, set `scrollLeft` to
`step * originalCount - peekPx`, and restore the saved behavior;
otherwise do nothing.  The result pairs the final viewport with the
trace of `scrollLeft` assignments, each tagged with the behavior in
force when it happened. -/
def initialScrollAdjust (step : ℚ) (originalCount : ℕ) (peekPx : ℚ)
    (v : Viewport) : Viewport × List (ℚ × ScrollBehavior) :=
  if 0 < step then
    let prevBehavior := v.scrollBehavior
    let v1 : Viewport := { v with scrollBehavior := ScrollBehavior.auto }
    let newLeft : ℚ := step * originalCount - peekPx
    let v2 : Viewport := { v1 with scrollLeft := newLeft }
    let v3 : Viewport := { v2 with scrollBehavior := prevBehavior }
    (v3, [(newLeft, v1.scrollBehavior)])
  else
    (v, [])

/-- A JS value appearing as a CSS-size option (`peek`, `gap`): a number
or a string of characters. -/
inductive JSValue
| num (q : ℚ)
| str (s : List Char)
deriving DecidableEq

/-- The non-responsive constructor options of `ofcarousel.js` (lines
42-58).  `peekRatioOpt` models `peekRatio`, which is `undefined` or a
number; the `responsive` map is kept apart because
`_applyResponsiveSettings` excludes it from the reset. -/
structure CarouselOptions where
  itemsVisible : ℤ
  peek : JSValue
  peekRatioOpt : Option ℚ
  gap : JSValue
  aspect : ℚ
  aspectAuto : Bool
  infinite : Bool
  dots : Bool
  autoplay : Bool
  autoplayInterval : ℚ
  pauseOnHover : Bool
  pauseOnFocus : Bool
  pauseOnVisibility : Bool
deriving DecidableEq

/-- A per-breakpoint settings object of the `responsive` option: each
present key overrides the corresponding option when the breakpoint is
applied (JS `Object.assign`). -/
structure BreakpointSettings where
  itemsVisible : Option ℤ := none
  peek : Option JSValue := none
  peekRatioOpt : Option (Option ℚ) := none
  gap : Option JSValue := none
  aspect : Option ℚ := none
  aspectAuto : Option Bool := none
  infinite : Option Bool := none
  dots : Option Bool := none
  autoplay : Option Bool := none
  autoplayInterval : Option ℚ := none
  pauseOnHover : Option Bool := none
  pauseOnFocus : Option Bool := none
  pauseOnVisibility : Option Bool := none
deriving DecidableEq

/-- Embedding of `Object.assign(this.options, settings)` (line 161):
every key present in `settings` overwrites the option. -/
def mergeOptions (o : CarouselOptions) (st : BreakpointSettings) : CarouselOptions :=
  { itemsVisible := st.itemsVisible.getD o.itemsVisible,
    peek := st.peek.getD o.peek,
    peekRatioOpt := st.peekRatioOpt.getD o.peekRatioOpt,
    gap := st.gap.getD o.gap,
    aspect := st.aspect.getD o.aspect,
    aspectAuto := st.aspectAuto.getD o.aspectAuto,
    infinite := st.infinite.getD o.infinite,
    dots := st.dots.getD o.dots,
    autoplay := st.autoplay.getD o.autoplay,
    autoplayInterval := st.autoplayInterval.getD o.autoplayInterval,
    pauseOnHover := st.pauseOnHover.getD o.pauseOnHover,
    pauseOnFocus := st.pauseOnFocus.getD o.pauseOnFocus,
    pauseOnVisibility := st.pauseOnVisibility.getD o.pauseOnVisibility }

/-- Embedding of `_applyResponsiveSettings` (ofcarousel.js lines 112-184)
as it affects `this.options`: with no responsive map the options are left
unchanged; otherwise the breakpoint keys are sorted descending
(`.sort((a, b) => b - a)`), every non-responsive option is reset to the
base options, the sorted keys are scanned keeping the last breakpoint
with `viewportWidth <= breakpoint`, and if one matched its settings are
overlaid with `Object.assign`.  The CSS-variable writes and the console
log do not affect the options. -/
def applyResponsiveSettings (base : CarouselOptions)
    (responsive : Option (List (ℕ × BreakpointSettings)))
    (cur : CarouselOptions) (viewportWidth : ℕ) : CarouselOptions :=
  match responsive with
  | none => cur
  | some resp =>
    let breakpoints : List ℕ := (resp.map Prod.fst).insertionSort (· ≥ ·)
    let appliedBreakpoint : Option ℕ :=
      breakpoints.foldl
        (fun acc bp => if viewportWidth ≤ bp then some bp else acc) none
    match appliedBreakpoint with
    | none => base
    | some bp =>
      match resp.lookup bp with
      | some st => mergeOptions base st
      | none => base

/-- Browser event types passed to `addEventListener` anywhere on the
constructor's code paths. -/
inductive EventType
| scroll
| resize
| visibilitychange
| mouseenter
| mouseleave
| focusin
| focusout
| click
| keydown
| load
deriving DecidableEq

/-- Shape of the DOM the constructor runs against: presence of
`.ofc-viewport`, `.ofc-track`, the nav buttons, the number of
`.ofc-slide` children, and the number of not-yet-complete images in the
first slide. -/
structure DomShape where
  hasViewport : Bool
  hasTrack : Bool
  hasPrevBtn : Bool
  hasNextBtn : Bool
  slideCount : ℕ
  incompleteImgCount : ℕ
deriving DecidableEq

/-- Listener registrations of `_setupInfiniteLoop` (lines 298-313) and
`_setupNonInfiniteMode` (lines 393-408): with slides present and
`aspectAuto` on, one `load` listener per not-yet-complete image of the
first slide. -/
def setupModeEvents (o : CarouselOptions) (d : DomShape) : List EventType :=
  if 0 < d.slideCount ∧ o.aspectAuto then
    List.replicate d.incompleteImgCount EventType.load
  else []

/-- Listener registration of `_setupScrollJump` (line 466): one `scroll`
listener on the viewport, skipped when viewport or track is missing. -/
def setupScrollJumpEvents (d : DomShape) : List EventType :=
  if d.hasViewport ∧ d.hasTrack then [EventType.scroll] else []

/-- Listener registrations of `_setupDots` (lines 549, 587): one `click`
listener per dot (one dot per original slide) and, via
`_attachActiveTracker`, one `scroll` listener on the viewport. -/
def setupDotsEvents (o : CarouselOptions) (d : DomShape) : List EventType :=
  if o.dots ∧ d.hasViewport ∧ d.hasTrack ∧ 0 < d.slideCount then
    List.replicate d.slideCount EventType.click ++ [EventType.scroll]
  else []

/-- Listener registrations of `_setupControls` (lines 498, 505, 526):
`click` on each present nav button and `keydown` on the document,
skipped entirely when the viewport is missing. -/
def setupControlsEvents (d : DomShape) : List EventType :=
  if d.hasViewport then
    (if d.hasPrevBtn then [EventType.click] else []) ++
    (if d.hasNextBtn then [EventType.click] else []) ++
    [EventType.keydown]
  else []

/-- Listener registrations of `_setupAutoplay` (lines 664-691):
`mouseenter`/`mouseleave` for `pauseOnHover`, `focusin`/`focusout` for
`pauseOnFocus`, `visibilitychange` for `pauseOnVisibility`. -/
def setupAutoplayEvents (o : CarouselOptions) (d : DomShape) : List EventType :=
  if o.autoplay ∧ d.hasViewport then
    (if o.pauseOnHover then [EventType.mouseenter, EventType.mouseleave] else []) ++
    (if o.pauseOnFocus then [EventType.focusin, EventType.focusout] else []) ++
    (if o.pauseOnVisibility then [EventType.visibilitychange] else [])
  else []

/-- Listener registration of `_setupResizeHandler` (line 743): `resize`
on the window, skipped when the viewport is missing. -/
def setupResizeEvents (d : DomShape) : List EventType :=
  if d.hasViewport then [EventType.resize] else []

/-- All listener registrations during construction, in constructor order
(lines 89-107).  When the track is missing, or the viewport is missing
while slides exist, the mode-setup step dereferences a null element and
the constructor aborts before any listener is registered. -/
def constructionEvents (o : CarouselOptions) (d : DomShape) : List EventType :=
  if ¬d.hasTrack ∨ (¬d.hasViewport ∧ 0 < d.slideCount) then []
  else
    setupModeEvents o d ++
    (if o.infinite then setupScrollJumpEvents d else []) ++
    setupDotsEvents o d ++
    setupControlsEvents d ++
    setupAutoplayEvents o d ++
    setupResizeEvents d

/-- The four event categories named by the spec: scroll, resize,
visibility, and focus/hover (the latter covering the mouse-enter/leave
and focus-in/out pairs). -/
def specFourCategories (e : EventType) : Bool :=
  match e with
  | EventType.scroll => true
  | EventType.resize => true
  | EventType.visibilitychange => true
  | EventType.mouseenter => true
  | EventType.mouseleave => true
  | EventType.focusin => true
  | EventType.focusout => true
  | EventType.click => false
  | EventType.keydown => false
  | EventType.load => false

/-- Unit suffixes accepted by the `_parsePixels` regex. -/
inductive CssUnit
| unitless
| px
| percent
| vw
| em
deriving DecidableEq

/-- Character class `[\d.]` of the `_parsePixels` regex (line 824). -/
def isDigitOrDot (c : Char) : Bool := c.isDigit || c = '.'

/-- Embedding of `String(value).trim()`. -/
def jsTrim (s : List Char) : List Char :=
  (((s.dropWhile Char.isWhitespace).reverse).dropWhile Char.isWhitespace).reverse

/-- Match of the regex `^([\d.]+)(px|%|vw|em)?$` against a character
list: the digits-and-dots run is greedy, and since no unit suffix starts
with a digit or a dot the decomposition is unique, so no backtracking
case is needed.  Returns the numeric part and the unit on success. -/
def matchPixelValue (s : List Char) : Option (List Char × CssUnit) :=
  let numPart := s.takeWhile isDigitOrDot
  let rest := s.dropWhile isDigitOrDot
  if numPart.isEmpty then none
  else
    match rest with
    | [] => some (numPart, CssUnit.unitless)
    | ['p', 'x'] => some (numPart, CssUnit.px)
    | ['%'] => some (numPart, CssUnit.percent)
    | ['v', 'w'] => some (numPart, CssUnit.vw)
    | ['e', 'm'] => some (numPart, CssUnit.em)
    | _ => none

/-- Numeric value of a digit string, most significant digit first. -/
def digitsVal (s : List Char) : ℕ :=
  s.foldl (fun acc c => acc * 10 + (c.toNat - 48)) 0

/-- JS `parseFloat` restricted to nonempty strings of digits and dots
(the only strings the regex match can produce): the longest valid
leading decimal `digits [ '.' digits ]`, ignoring everything after it;
`none` models `NaN`, produced when the string starts with no parsable
decimal at all (for example `"."` or `".."`). -/
def parseFloatDigitsDots (s : List Char) : Option ℚ :=
  let intPart := s.takeWhile Char.isDigit
  let rest := s.dropWhile Char.isDigit
  match rest with
  | '.' :: rest2 =>
    let fracPart := rest2.takeWhile Char.isDigit
    if intPart.isEmpty && fracPart.isEmpty then none
    else some ((digitsVal intPart : ℚ) + (digitsVal fracPart : ℚ) / 10 ^ fracPart.length)
  | _ => if intPart.isEmpty then none else some (digitsVal intPart : ℚ)

/-- Embedding of `_parsePixels` (ofcarousel.js lines 820-833).  The JS
number result is `Option ℚ`, `none` standing for `NaN`; `NaN` from
`parseFloat` propagates unchanged through every unit branch because
multiplying or dividing `NaN` stays `NaN`. -/
def parsePixels (value : JSValue) (base : ℚ) : Option ℚ :=
  match value with
  | JSValue.num q => some q
  | JSValue.str s =>
    match matchPixelValue (jsTrim s) with
    | none => some 0
    | some (numPart, u) =>
      match parseFloatDigitsDots numPart with
      | none => none
      | some n =>
        match u with
        | CssUnit.unitless => some n
        | CssUnit.px => some n
        | CssUnit.percent => some (base * n / 100)
        | CssUnit.vw => some (base * n / 100)
        | CssUnit.em => some (n * 16)

/-- Reasons autoplay can be paused (`_pauseReasons` elements). -/
inductive PauseReason
| hover
| focus
| visibility
deriving DecidableEq

/-- The autoplay-relevant state: the `autoplay` option, `_pauseReasons`,
and whether `_autoplayTimer` is non-null. -/
structure AutoplayState where
  autoplay : Bool
  pauseReasons : Finset PauseReason
  timerActive : Bool
deriving DecidableEq

/-- Embedding of `_clearAutoplayTimer` (lines 706-711). -/
def clearAutoplayTimer (s : AutoplayState) : AutoplayState :=
  { s with timerActive := false }

/-- Embedding of `_startAutoplayTimer` (lines 697-704): refuses when
autoplay is off or any pause reason is present; otherwise clears any
running interval and starts a fresh one. -/
def startAutoplayTimer (s : AutoplayState) : AutoplayState :=
  if !s.autoplay then s
  else if 0 < s.pauseReasons.card then s
  else { clearAutoplayTimer s with timerActive := true }

/-- Embedding of `_restartAutoplay` (lines 713-717). -/
def restartAutoplay (s : AutoplayState) : AutoplayState :=
  if !s.autoplay then s
  else if 0 < s.pauseReasons.card then s
  else startAutoplayTimer s

/-- The handler steps acting on the autoplay state: the six listeners
registered by `_setupAutoplay` (lines 656-690) and `_restartAutoplay` as
invoked by the navigation and dot handlers. -/
inductive AutoplayEvent
| mouseenter
| mouseleave
| focusin
| focusout
| visibilitychange (hidden : Bool)
| restart
deriving DecidableEq

/-- One handler step, mirroring each handler body of `_setupAutoplay`. -/
def autoplayStep (e : AutoplayEvent) (s : AutoplayState) : AutoplayState :=
  match e with
  | AutoplayEvent.mouseenter =>
    clearAutoplayTimer { s with pauseReasons := insert PauseReason.hover s.pauseReasons }
  | AutoplayEvent.mouseleave =>
    startAutoplayTimer { s with pauseReasons := s.pauseReasons.erase PauseReason.hover }
  | AutoplayEvent.focusin =>
    clearAutoplayTimer { s with pauseReasons := insert PauseReason.focus s.pauseReasons }
  | AutoplayEvent.focusout =>
    startAutoplayTimer { s with pauseReasons := s.pauseReasons.erase PauseReason.focus }
  | AutoplayEvent.visibilitychange hidden =>
    if hidden then
      clearAutoplayTimer { s with pauseReasons := insert PauseReason.visibility s.pauseReasons }
    else
      startAutoplayTimer { s with pauseReasons := s.pauseReasons.erase PauseReason.visibility }
  | AutoplayEvent.restart => restartAutoplay s

/-- State after `_setupAutoplay` (lines 650-695) on a fresh instance
with a viewport present: with autoplay on, `_pauseReasons` is created
empty and `_startAutoplayTimer` runs once; with autoplay off the
function returns before touching anything. -/
def setupAutoplay (autoplay : Bool) : AutoplayState :=
  if autoplay then
    startAutoplayTimer
      { autoplay := autoplay, pauseReasons := ∅, timerActive := false }
  else
    { autoplay := autoplay, pauseReasons := ∅, timerActive := false }

/-- Invariant of claim C10: the interval is never active while a pause
reason is present. -/
def PausedImpliesNoTimer (s : AutoplayState) : Prop :=
  0 < s.pauseReasons.card → s.timerActive = false

/-- Sample autoplay state used by a closed witness statement. -/
def sampleAutoplay : AutoplayState :=
  { autoplay := true, pauseReasons := {PauseReason.focus}, timerActive := false }

/-- Sample slide list used by closed witness statements. -/
def sampleSlides : List Slide :=
  [{ content := 0, ariaHidden := false }, { content := 1, ariaHidden := false }]

/-- Sample options used by closed witness statements: dots, autoplay and
all pause options on, defaults elsewhere. -/
def sampleOptions : CarouselOptions :=
  { itemsVisible := 3, peek := JSValue.str ['6', '0', 'p', 'x'],
    peekRatioOpt := none, gap := JSValue.str ['5', 'p', 'x'],
    aspect := 178 / 100, aspectAuto := false, infinite := true,
    dots := true, autoplay := true, autoplayInterval := 3000,
    pauseOnHover := true, pauseOnFocus := true, pauseOnVisibility := true }

/-- Sample DOM shape used by closed witness statements: full markup with
three slides, both nav buttons, no images. -/
def sampleDom : DomShape :=
  { hasViewport := true, hasTrack := true, hasPrevBtn := true,
    hasNextBtn := true, slideCount := 3, incompleteImgCount := 0 }

/-- Sample responsive map used by a closed witness statement. -/
def sampleResponsive : List (ℕ × BreakpointSettings) :=
  [(768, { itemsVisible := some 1 }), (1024, { itemsVisible := some 2 })]

/-- Sample state used by closed witness statements: infinite mode, step
10, three slides, peek 5, scrolled into the start-clone region. -/
def sampleStartClone : CarouselState :=
  { hasViewport := true, step := 10, originalCount := 3, peekPx := 5,
    scrollLeft := 2, infinite := true }

/-- Sample state used by closed witness statements: infinite mode, step
10, three slides, peek 5, scrolled inside the real-slide region. -/
def sampleReal : CarouselState :=
  { hasViewport := true, step := 10, originalCount := 3, peekPx := 5,
    scrollLeft := 40, infinite := true }


/-- Sample string input for the C9 counterexample: the characters of
`"1.2.3"`. -/
def multiDotInput : JSValue :=
  JSValue.str ['1', '.', '2', '.', '3']

/-- NaN-aware variant of the carousel state: `_peekPx` is stored as the
result of `_parsePixels` (ofcarousel.js line 238), which is `NaN`
(`none`) for peek strings such as `"."`.  A `NaN` step is falsy in JS
and takes the `!step` guard exactly like 0, and `viewport.scrollLeft`
read back from the DOM is always a real number, so the stored peek is
the one field that can carry `NaN` past the guards of
`_getCurrentIndex`. -/
structure CarouselStateN where
  hasViewport : Bool
  step : ℚ
  originalCount : ℕ
  peekPx : Option ℚ
  scrollLeft : ℚ
  infinite : Bool
deriving DecidableEq

/-- Embedding of `_getCurrentIndex` (ofcarousel.js lines 604-619) over
the NaN-aware state; the result is a JS number, `none` standing for
`NaN`.  With a `NaN` stored peek the infinite branch computes
`base = NaN`, `raw = Math.round(NaN) = NaN` and
`((NaN % n) + n) % n = NaN`, so the branch returns `NaN`; the
non-infinite branch never reads `_peekPx`. -/
def getCurrentIndexN (s : CarouselStateN) : Option ℤ :=
  if !s.hasViewport then some 0
  else if s.step = 0 ∨ s.originalCount = 0 then some 0
  else if s.infinite then
    match s.peekPx with
    | none => none
    | some peek =>
      let base : ℚ := s.step * s.originalCount - peek
      let raw : ℤ := round ((s.scrollLeft - base) / s.step)
      some (jsRem (jsRem raw s.originalCount + s.originalCount) s.originalCount)
  else
    let raw : ℤ := round (s.scrollLeft / s.step)
    some (min ((s.originalCount : ℤ) - 1) (max 0 raw))

/-- Sample NaN-peek state: full markup, step 10, three slides, infinite
mode, with `_peekPx` exactly the value `_parsePixels` stores for the
peek string `"."` at viewport width 100. -/
def sampleNaNPeek : CarouselStateN :=
  { hasViewport := true, step := 10, originalCount := 3,
    peekPx := parsePixels (JSValue.str ['.']) 100,
    scrollLeft := 40, infinite := true }

/-- Sample numeric-peek NaN-aware state used by a closed witness
statement. -/
def sampleRealN : CarouselStateN :=
  { hasViewport := true, step := 10, originalCount := 3, peekPx := some 5,
    scrollLeft := 40, infinite := true }

/-- The JS double-modulo normalization `((a % n) + n) % n` equals the
Euclidean remainder for a positive modulus. -/
theorem jsRem_double_normalize (a n : ℤ) (h : 0 < n) :
    jsRem (jsRem a n + n) n = a % n := by
  unfold jsRem
  have h1 : a.tmod n < n := Int.tmod_lt_of_pos a h
  have hd := Int.tdiv_add_tmod a n
  have h2 : -n < a.tmod n := by
    rcases le_or_lt 0 a with ha | ha
    · have := Int.tmod_nonneg n ha
      omega
    · have hb : (-a).tmod n < n := Int.tmod_lt_of_pos (-a) h
      have hdn := Int.tdiv_add_tmod (-a) n
      have e1 : n * ((-a).tdiv n) = -(n * (a.tdiv n)) := by
        rw [Int.neg_tdiv]; ring
      omega
  have h3 : (a.tmod n + n).tmod n = (a.tmod n + n) % n := by
    apply Int.tmod_eq_emod <;> omega
  have h5 : (a.tmod n + n) % n = a.tmod n % n := by
    have h6 := Int.add_mul_emod_self_left (a := a.tmod n) (b := n) (c := 1)
    simpa using h6
  have h4 : a.tmod n % n = a % n := by
    conv_rhs => rw [← hd]
    rw [Int.add_comm, Int.add_mul_emod_self_left]
  rw [h3, h5, h4]

/-- In infinite mode with a viewport, a nonzero step and at least one
slide, `_getCurrentIndex` is the Euclidean remainder of the rounded
slide offset. -/
theorem getCurrentIndex_infinite_eq (s : CarouselState) (hv : s.hasViewport = true)
    (hinf : s.infinite = true) (hstep : s.step ≠ 0) (hn : s.originalCount ≠ 0) :
    getCurrentIndex s =
      round ((s.scrollLeft - (s.step * s.originalCount - s.peekPx)) / s.step)
        % (s.originalCount : ℤ) := by
  have hpos : 0 < (s.originalCount : ℤ) := by
    exact_mod_cast Nat.pos_of_ne_zero hn
  simp only [getCurrentIndex, hv, hinf, Bool.not_true, Bool.false_eq_true, if_false]
  rw [if_neg (by tauto), if_pos trivial]
  exact jsRem_double_normalize _ _ hpos

/-- Shifting the scroll position by a whole number of real-set widths
does not change `_getCurrentIndex` in infinite mode. -/
theorem getCurrentIndex_shift_sets (s : CarouselState) (k : ℤ)
    (hinf : s.infinite = true) (hstep : s.step ≠ 0) :
    getCurrentIndex
      { s with scrollLeft :=
          s.scrollLeft + s.step * (s.originalCount : ℚ) * (k : ℚ) } =
      getCurrentIndex s := by
  rcases Bool.eq_false_or_eq_true s.hasViewport with hv | hv
  case inr => simp [getCurrentIndex, hv]
  case inl =>
    rcases Nat.eq_zero_or_pos s.originalCount with hn | hn
    · simp [getCurrentIndex, hn]
    · have hn' : s.originalCount ≠ 0 := by omega
      rw [getCurrentIndex_infinite_eq
          { s with scrollLeft :=
              s.scrollLeft + s.step * (s.originalCount : ℚ) * (k : ℚ) }
          hv hinf hstep hn']
      rw [getCurrentIndex_infinite_eq s hv hinf hstep hn']
      dsimp only
      have hdiv : (s.scrollLeft + s.step * (s.originalCount : ℚ) * (k : ℚ) -
            (s.step * s.originalCount - s.peekPx)) / s.step
          = (s.scrollLeft - (s.step * s.originalCount - s.peekPx)) / s.step +
            (((s.originalCount : ℤ) * k : ℤ) : ℚ) := by
        push_cast
        field_simp
        ring
      rw [hdiv, round_add_int, Int.add_mul_emod_self_left]

/-- Claim C1: in infinite mode, when the debounced scroll handler finds
`scrollLeft` in a clone region it teleports by exactly one full real-set
width `step * originalCount` — for `scrollLeft < step * originalCount -
peekPx` the new position is `scrollLeft + step * originalCount`, for
`scrollLeft > 2 * step * originalCount - peekPx` it is `scrollLeft -
step * originalCount` — and `_getCurrentIndex` returns the same value
before and after the handler runs. -/
theorem scroll_jump_teleports_exactly_one_set
    (s : CarouselState) (hv : s.hasViewport = true) (hinf : s.infinite = true)
    (hstep : 0 < s.step) :
    (s.scrollLeft < s.step * s.originalCount - s.peekPx →
      (scrollHandlerStep s).scrollLeft = s.scrollLeft + s.step * s.originalCount) ∧
    (2 * (s.step * s.originalCount) - s.peekPx < s.scrollLeft →
      (scrollHandlerStep s).scrollLeft = s.scrollLeft - s.step * s.originalCount) ∧
    getCurrentIndex (scrollHandlerStep s) = getCurrentIndex s := by
  have hstep' : s.step ≠ 0 := ne_of_gt hstep
  have hsn : 0 ≤ s.step * (s.originalCount : ℚ) := by positivity
  refine ⟨?_, ?_, ?_⟩
  · intro h
    simp only [scrollHandlerStep, scrollJumpNewLeft]
    rw [if_pos (by linarith)]
    ring
  · intro h
    simp only [scrollHandlerStep, scrollJumpNewLeft]
    rw [if_neg (by linarith), if_pos (by linarith)]
    ring
  · have key : ∀ L : ℚ,
        (∃ k : ℤ, L = s.scrollLeft + s.step * (s.originalCount : ℚ) * (k : ℚ)) →
        getCurrentIndex { s with scrollLeft := L } = getCurrentIndex s := by
      rintro L ⟨k, rfl⟩
      exact getCurrentIndex_shift_sets s k hinf hstep'
    apply key
    simp only [scrollJumpNewLeft]
    split_ifs with h1 h2
    · exact ⟨1, by push_cast; ring⟩
    · exact ⟨-1, by push_cast; ring⟩
    · exact ⟨0, by push_cast; ring⟩

/-- Claim C1 witness: concrete start-clone-region state, step 10, three
slides, peek 5, scrollLeft 2. -/
theorem scroll_jump_teleports_exactly_one_set_witness :
    (scrollHandlerStep sampleStartClone).scrollLeft =
      sampleStartClone.scrollLeft +
        sampleStartClone.step * sampleStartClone.originalCount ∧
    getCurrentIndex (scrollHandlerStep sampleStartClone) =
      getCurrentIndex sampleStartClone := by
  have h := scroll_jump_teleports_exactly_one_set sampleStartClone
    (by decide) (by decide) (by norm_num [sampleStartClone])
  exact ⟨h.1 (by norm_num [sampleStartClone]), h.2.2⟩

/-- Claim C2: for a positive step, at least one slide, nonnegative peek
and `scrollLeft` within the track `[0, 3 * step * originalCount -
peekPx]`, the handler body lands `scrollLeft` inside the real-slide
region `[step * originalCount - peekPx, 2 * step * originalCount -
peekPx]`, and leaves a position already inside that region unchanged. -/
theorem scroll_handler_confines_to_real_region
    (s : CarouselState) (hn : 1 ≤ s.originalCount) (hstep : 0 < s.step)
    (hpeek : 0 ≤ s.peekPx) (hlo : 0 ≤ s.scrollLeft)
    (hhi : s.scrollLeft ≤ 3 * (s.step * s.originalCount) - s.peekPx) :
    (s.step * s.originalCount - s.peekPx ≤ (scrollHandlerStep s).scrollLeft ∧
      (scrollHandlerStep s).scrollLeft ≤ 2 * (s.step * s.originalCount) - s.peekPx) ∧
    (s.step * s.originalCount - s.peekPx ≤ s.scrollLeft →
      s.scrollLeft ≤ 2 * (s.step * s.originalCount) - s.peekPx →
      (scrollHandlerStep s).scrollLeft = s.scrollLeft) := by
  have hN : (1:ℚ) ≤ (s.originalCount : ℚ) := by exact_mod_cast hn
  have hX : 0 < s.step * (s.originalCount : ℚ) := by nlinarith
  simp only [scrollHandlerStep, scrollJumpNewLeft]
  split_ifs with h1 h2
  · exact ⟨⟨by linarith, by linarith⟩,
      fun hA _ => absurd hA (not_le.mpr h1)⟩
  · exact ⟨⟨by linarith, by linarith⟩,
      fun _ hB => absurd h2 (not_lt.mpr (by linarith))⟩
  · exact ⟨⟨by linarith, by linarith⟩, fun _ _ => rfl⟩

/-- Claim C2 witness: the start-clone state is teleported into the real
region, and the in-region state is left unchanged. -/
theorem scroll_handler_confines_to_real_region_witness :
    (sampleStartClone.step * sampleStartClone.originalCount -
        sampleStartClone.peekPx ≤ (scrollHandlerStep sampleStartClone).scrollLeft ∧
      (scrollHandlerStep sampleStartClone).scrollLeft ≤
        2 * (sampleStartClone.step * sampleStartClone.originalCount) -
          sampleStartClone.peekPx) ∧
    (scrollHandlerStep sampleReal).scrollLeft = sampleReal.scrollLeft := by
  refine ⟨(scroll_handler_confines_to_real_region sampleStartClone
    (by decide) (by norm_num [sampleStartClone]) (by norm_num [sampleStartClone])
    (by norm_num [sampleStartClone]) (by norm_num [sampleStartClone])).1, ?_⟩
  exact (scroll_handler_confines_to_real_region sampleReal
    (by decide) (by norm_num [sampleReal]) (by norm_num [sampleReal])
    (by norm_num [sampleReal]) (by norm_num [sampleReal])).2
    (by norm_num [sampleReal]) (by norm_num [sampleReal])

/-- For at least one slide, `_getCurrentIndex` lies in
`[0, originalCount - 1]` whatever the rest of the state is. -/
theorem getCurrentIndex_range (s : CarouselState) (hn : 1 ≤ s.originalCount) :
    0 ≤ getCurrentIndex s ∧ getCurrentIndex s ≤ (s.originalCount : ℤ) - 1 := by
  have hpos : 0 < (s.originalCount : ℤ) := by exact_mod_cast hn
  simp only [getCurrentIndex]
  split_ifs with h1 h2 h3
  · omega
  · omega
  · rw [jsRem_double_normalize _ _ hpos]
    have ha := Int.emod_nonneg
      (round ((s.scrollLeft - (s.step * s.originalCount - s.peekPx)) / s.step))
      (by omega : (s.originalCount : ℤ) ≠ 0)
    have hb := Int.emod_lt_of_pos
      (round ((s.scrollLeft - (s.step * s.originalCount - s.peekPx)) / s.step)) hpos
    omega
  · omega

/-- With a numeric stored peek, the NaN-aware `_getCurrentIndex` agrees
with the rational-state embedding. -/
theorem getCurrentIndexN_eq_some (s : CarouselStateN) (p : ℚ)
    (hp : s.peekPx = some p) :
    getCurrentIndexN s = some (getCurrentIndex
      { hasViewport := s.hasViewport, step := s.step,
        originalCount := s.originalCount, peekPx := p,
        scrollLeft := s.scrollLeft, infinite := s.infinite }) := by
  simp only [getCurrentIndexN, getCurrentIndex, hp]
  split_ifs <;> rfl

/-- Claim C8 counterexample: `_parsePixels` stores `NaN` as `_peekPx`
for the peek string `"."` (the regex accepts `"."` and
`parseFloat(".")` is `NaN`), and on a state carrying that stored peek
with a viewport, a positive step, three slides and infinite mode,
`_getCurrentIndex` evaluates to `NaN` — not an integer in
`[0, originalCount - 1]` — so it is not range-safe for every reachable
state. -/
theorem getCurrentIndex_nan_peek_returns_nan :
    parsePixels (JSValue.str ['.']) 100 = none ∧
    sampleNaNPeek.peekPx = none ∧
    getCurrentIndexN sampleNaNPeek = none ∧
    (getCurrentIndexN sampleNaNPeek).isSome = false := by
  have hp : sampleNaNPeek.peekPx = none := by decide
  have hs : sampleNaNPeek =
      { hasViewport := true, step := 10, originalCount := 3,
        peekPx := none, scrollLeft := 40, infinite := true } := by
    simp only [sampleNaNPeek]
    congr 1
  have hg : getCurrentIndexN sampleNaNPeek = none := by
    rw [hs]
    norm_num [getCurrentIndexN]
  exact ⟨by decide, hp, hg, by rw [hg]; rfl⟩

/-- Claim C8 (amended): `_getCurrentIndex` returns 0 when the viewport
is missing, when the step is falsy or when `originalCount` is 0; with
at least one slide it returns an integer in `[0, originalCount - 1]`
whenever the stored `_peekPx` is an actual number, and in non-infinite
mode even regardless of `_peekPx` (the clamping branch never reads
it); but when `_peekPx` is `NaN` — as `_parsePixels` stores for peek
values such as `"."` — and the guards pass in infinite mode, it
returns `NaN` rather than an integer in range. -/
theorem getCurrentIndexN_total_and_range_characterized (s : CarouselStateN) :
    (s.hasViewport = false → getCurrentIndexN s = some 0) ∧
    (s.step = 0 → getCurrentIndexN s = some 0) ∧
    (s.originalCount = 0 → getCurrentIndexN s = some 0) ∧
    (s.hasViewport = true → s.step ≠ 0 → s.originalCount ≠ 0 →
      s.infinite = true → s.peekPx = none → getCurrentIndexN s = none) ∧
    (∀ p : ℚ, s.peekPx = some p → 1 ≤ s.originalCount →
      ∃ z : ℤ, getCurrentIndexN s = some z ∧
        0 ≤ z ∧ z ≤ (s.originalCount : ℤ) - 1) ∧
    (s.infinite = false → 1 ≤ s.originalCount →
      ∃ z : ℤ, getCurrentIndexN s = some z ∧
        0 ≤ z ∧ z ≤ (s.originalCount : ℤ) - 1) := by
  refine ⟨?_, ?_, ?_, ?_, ?_, ?_⟩
  · intro h; simp [getCurrentIndexN, h]
  · intro h; simp [getCurrentIndexN, h]
  · intro h; simp [getCurrentIndexN, h]
  · intro hv hstep hn hinf hp
    simp [getCurrentIndexN, hv, hstep, hn, hinf, hp]
  · intro p hp hn1
    rw [getCurrentIndexN_eq_some s p hp]
    refine ⟨_, rfl, ?_⟩
    exact getCurrentIndex_range
      { hasViewport := s.hasViewport, step := s.step,
        originalCount := s.originalCount, peekPx := p,
        scrollLeft := s.scrollLeft, infinite := s.infinite } hn1
  · intro hinf hn1
    have hpos : 0 < (s.originalCount : ℤ) := by exact_mod_cast hn1
    simp only [getCurrentIndexN, hinf, Bool.false_eq_true, if_false]
    split_ifs with h1 h2
    · exact ⟨0, rfl, le_refl 0, by omega⟩
    · exact ⟨0, rfl, le_refl 0, by omega⟩
    · exact ⟨_, rfl, by omega, by omega⟩

/-- Claim C8 witness: the numeric-peek range statement evaluated on the
concrete NaN-aware state with stored peek 5 and three slides. -/
theorem getCurrentIndexN_total_and_range_characterized_witness :
    ∃ z : ℤ, getCurrentIndexN sampleRealN = some z ∧
      0 ≤ z ∧ z ≤ (sampleRealN.originalCount : ℤ) - 1 :=
  (getCurrentIndexN_total_and_range_characterized sampleRealN).2.2.2.2.1 5 rfl
    (by decide)

/-- The start fragment is the hidden-clone image of the slide list in
original order. -/
theorem buildStartFragment_eq_map (slides : List Slide) :
    buildStartFragment slides = slides.map cloneHidden := by
  induction slides with
  | nil => rfl
  | cons a t ih => simp [buildStartFragment, List.map_cons] at ih ⊢; exact ih

/-- The end fragment is the hidden-clone image of the slide list in
original order. -/
theorem buildEndFragment_eq_map (slides : List Slide) :
    buildEndFragment slides = slides.map cloneHidden := by
  have key : ∀ (l : List Slide) (acc : List Slide),
      l.foldl (fun acc sl => acc ++ [cloneHidden sl]) acc = acc ++ l.map cloneHidden := by
    intro l
    induction l with
    | nil => intro acc; simp
    | cons a t ih => intro acc; simp [List.foldl_cons, ih]
  simpa using key slides []

/-- Claim C3: with `infinite` enabled and `n >= 1` slides,
`_setupInfiniteLoop` inserts exactly `n` clones before the originals and
`n` clones after them, each clone carrying `aria-hidden="true"`, with
the original slide order preserved in both clone blocks, ending with
`3 n` slides of which the middle `n` are the originals. -/
theorem setupInfiniteLoop_inserts_hidden_clone_blocks
    (slides : List Slide) (hn : 1 ≤ slides.length) :
    setupInfiniteLoopTrack slides =
      slides.map cloneHidden ++ slides ++ slides.map cloneHidden ∧
    (setupInfiniteLoopTrack slides).length = 3 * slides.length ∧
    ((setupInfiniteLoopTrack slides).drop slides.length).take slides.length
      = slides ∧
    (∀ c ∈ buildStartFragment slides, c.ariaHidden = true) ∧
    (∀ c ∈ buildEndFragment slides, c.ariaHidden = true) ∧
    (buildStartFragment slides).map Slide.content = slides.map Slide.content ∧
    (buildEndFragment slides).map Slide.content = slides.map Slide.content := by
  have hS := buildStartFragment_eq_map slides
  have hE := buildEndFragment_eq_map slides
  have hlen : (slides.map cloneHidden).length = slides.length := List.length_map _ _
  have heq : setupInfiniteLoopTrack slides =
      slides.map cloneHidden ++ slides ++ slides.map cloneHidden := by
    simp [setupInfiniteLoopTrack, hS, hE]
  refine ⟨heq, ?_, ?_, ?_, ?_, ?_, ?_⟩
  · simp [heq]; ring
  · rw [heq, List.append_assoc, ← hlen, List.drop_left, hlen, List.take_left]
  · intro c hc
    rw [hS, List.mem_map] at hc
    obtain ⟨a, _, rfl⟩ := hc
    rfl
  · intro c hc
    rw [hE, List.mem_map] at hc
    obtain ⟨a, _, rfl⟩ := hc
    rfl
  · rw [hS, List.map_map]; rfl
  · rw [hE, List.map_map]; rfl

/-- Claim C3 witness: the clone-block statement evaluated on the
two-slide sample list. -/
theorem setupInfiniteLoop_inserts_hidden_clone_blocks_witness :
    setupInfiniteLoopTrack sampleSlides =
      sampleSlides.map cloneHidden ++ sampleSlides ++ sampleSlides.map cloneHidden ∧
    (setupInfiniteLoopTrack sampleSlides).length = 3 * sampleSlides.length :=
  ⟨(setupInfiniteLoop_inserts_hidden_clone_blocks sampleSlides (by decide)).1,
   (setupInfiniteLoop_inserts_hidden_clone_blocks sampleSlides (by decide)).2.1⟩

/-- At the scroll target of `_scrollToIndex i`, `_getCurrentIndex`
evaluates back to `i`, in both modes. -/
theorem getCurrentIndex_at_target (s : CarouselState) (i : ℤ)
    (hv : s.hasViewport = true) (hstep : 0 < s.step)
    (hi0 : 0 ≤ i) (hi1 : i < (s.originalCount : ℤ)) :
    getCurrentIndex
      { s with scrollLeft :=
          scrollToIndexTarget s.step s.originalCount s.peekPx s.infinite i } = i := by
  have hstep' : s.step ≠ 0 := ne_of_gt hstep
  have hn' : s.originalCount ≠ 0 := by omega
  have hclamp : min ((s.originalCount : ℤ) - 1) (max 0 i) = i := by omega
  by_cases hinf : s.infinite = true
  · rw [getCurrentIndex_infinite_eq
      { s with scrollLeft :=
          scrollToIndexTarget s.step s.originalCount s.peekPx s.infinite i }
      hv hinf hstep' hn']
    rw [show scrollToIndexTarget s.step s.originalCount s.peekPx s.infinite i =
        s.step * s.originalCount - s.peekPx + s.step * (i : ℚ) from by
      simp [scrollToIndexTarget, hinf, hclamp]]
    rw [show (s.step * ↑s.originalCount - s.peekPx + s.step * (i : ℚ) -
        (s.step * ↑s.originalCount - s.peekPx)) = s.step * (i : ℚ) from by ring]
    rw [mul_div_cancel_left₀ _ hstep', round_intCast]
    exact Int.emod_eq_of_lt hi0 hi1
  · have hinf' : s.infinite = false := by simpa using hinf
    simp only [getCurrentIndex, hv, hinf', Bool.not_true, Bool.false_eq_true,
      if_false]
    rw [if_neg (by tauto)]
    rw [show scrollToIndexTarget s.step s.originalCount s.peekPx false i =
        s.step * (i : ℚ) from by
      simp [scrollToIndexTarget, hclamp]]
    rw [mul_div_cancel_left₀ _ hstep', round_intCast]
    omega

/-- Claim C4: `_getCurrentIndex` evaluated at the `_scrollToIndex i`
target returns `i` for any `0 <= i < originalCount` and positive step,
in both modes; and `_handleResize`, which records the index before
recomputing the layout and then scrolls to it, preserves the current
index across a resize whenever the old and new steps are positive. -/
theorem scrollToIndex_roundtrip_and_resize_preserves_index
    (s : CarouselState) (i : ℤ) (hv : s.hasViewport = true)
    (hstep : 0 < s.step) (hi0 : 0 ≤ i) (hi1 : i < (s.originalCount : ℤ)) :
    getCurrentIndex
      { s with scrollLeft :=
          scrollToIndexTarget s.step s.originalCount s.peekPx s.infinite i } = i ∧
    (∀ newStep newPeekPx : ℚ, 0 < newStep →
      getCurrentIndex (handleResize s newStep newPeekPx) = getCurrentIndex s) := by
  refine ⟨getCurrentIndex_at_target s i hv hstep hi0 hi1, ?_⟩
  intro ns np hns
  have hn : 1 ≤ s.originalCount := by omega
  have hrange := getCurrentIndex_range s hn
  have hlt : getCurrentIndex s <
      ((({ s with step := ns, peekPx := np } : CarouselState).originalCount : ℤ)) := by
    show getCurrentIndex s < (s.originalCount : ℤ)
    omega
  exact getCurrentIndex_at_target
    { s with step := ns, peekPx := np } (getCurrentIndex s) hv hns
    hrange.1 hlt

/-- Claim C4 witness: index 2 of the three-slide sample state round-trips
through `_scrollToIndex`, and a resize to step 7, peek 3 keeps the
index. -/
theorem scrollToIndex_roundtrip_and_resize_preserves_index_witness :
    getCurrentIndex
      { sampleReal with scrollLeft :=
          (scrollToIndexTarget sampleReal.step sampleReal.originalCount
            sampleReal.peekPx sampleReal.infinite 2) } = 2 ∧
    getCurrentIndex (handleResize sampleReal 7 3) = getCurrentIndex sampleReal := by
  have h := scrollToIndex_roundtrip_and_resize_preserves_index sampleReal 2
    (by decide) (by norm_num [sampleReal]) (by decide) (by decide)
  exact ⟨h.1, h.2 7 3 (by norm_num)⟩

/-- Claim C5: with `infinite` enabled and a positive step, the initial
position adjustment sets `scrollLeft` to exactly
`step * originalCount - peekPx`, the single assignment happens while
`scroll-behavior` is forced to `auto`, the previous behavior is
restored afterwards, and with step 0 nothing is touched. -/
theorem initial_position_scrolls_to_first_real_slide
    (step : ℚ) (originalCount : ℕ) (peekPx : ℚ) (v : Viewport) :
    (0 < step →
      (initialScrollAdjust step originalCount peekPx v).1.scrollLeft =
        step * originalCount - peekPx ∧
      (initialScrollAdjust step originalCount peekPx v).1.scrollBehavior =
        v.scrollBehavior ∧
      (initialScrollAdjust step originalCount peekPx v).2 =
        [(step * originalCount - peekPx, ScrollBehavior.auto)]) ∧
    (step = 0 →
      initialScrollAdjust step originalCount peekPx v = (v, [])) := by
  constructor
  · intro h
    simp [initialScrollAdjust, h]
  · intro h
    simp [initialScrollAdjust, h]

/-- Claim C5 witness: step 10, three slides, peek 5 on a viewport with
smooth behavior; and the untouched step-0 case. -/
theorem initial_position_scrolls_to_first_real_slide_witness :
    (initialScrollAdjust 10 3 5
        { scrollLeft := 0, scrollBehavior := ScrollBehavior.smooth }).1.scrollLeft =
      10 * ((3 : ℕ) : ℚ) - 5 ∧
    initialScrollAdjust 0 3 5
        { scrollLeft := 0, scrollBehavior := ScrollBehavior.smooth } =
      ({ scrollLeft := 0, scrollBehavior := ScrollBehavior.smooth }, []) := by
  constructor
  · exact ((initial_position_scrolls_to_first_real_slide 10 3 5
      { scrollLeft := 0, scrollBehavior := ScrollBehavior.smooth }).1
      (by norm_num)).1
  · exact (initial_position_scrolls_to_first_real_slide 0 3 5
      { scrollLeft := 0, scrollBehavior := ScrollBehavior.smooth }).2 rfl

/-- The breakpoint scan of `_applyResponsiveSettings` keeps the last
matching element of the list it folds over. -/
theorem foldl_keep_last_match (w : ℕ) (L : List ℕ) (init : Option ℕ) :
    L.foldl (fun acc bp => if w ≤ bp then some bp else acc) init =
      ((L.filter fun bp => decide (w ≤ bp)).getLast?).elim init some := by
  induction L using List.reverseRecOn generalizing init with
  | nil => rfl
  | append_singleton l b ih =>
    rw [List.foldl_append]
    by_cases hw : w ≤ b
    · simp [List.filter_append, hw, List.getLast?_concat]
    · simp [List.filter_append, hw, ih]

/-- In a descending-sorted list, the last element satisfying a
lower-bound property is the minimum element satisfying it. -/
theorem sorted_ge_getLast_eq_min (M : List ℕ) (hsort : M.Sorted (· ≥ ·))
    (b : ℕ) (hb : b ∈ M) (hmin : ∀ x ∈ M, b ≤ x) : M.getLast? = some b := by
  induction M with
  | nil => cases hb
  | cons a t ih =>
    cases t with
    | nil =>
      have : b = a := by simpa using hb
      subst this
      rfl
    | cons c t2 =>
      rw [List.getLast?_cons_cons]
      have hbt : b ∈ c :: t2 := by
        rcases List.mem_cons.mp hb with rfl | hbt
        · have hac : b ≥ c := List.rel_of_sorted_cons hsort c (List.mem_cons_self _ _)
          have hca : b ≤ c := hmin c (List.mem_cons_of_mem _ (List.mem_cons_self _ _))
          have : c = b := le_antisymm hac hca
          rw [← this]
          exact List.mem_cons_self _ _
        · exact hbt
      exact ih (List.Sorted.of_cons hsort) hbt
        (fun x hx => hmin x (List.mem_cons_of_mem _ hx))

/-- Claim C6: `_applyResponsiveSettings` resets all non-responsive
options to the base options and overlays the settings of the smallest
breakpoint `b` with `viewportWidth <= b`; with no matching breakpoint
the base options remain; with no responsive map nothing changes. -/
theorem responsive_settings_use_smallest_matching_breakpoint
    (base cur : CarouselOptions) (resp : List (ℕ × BreakpointSettings)) (w : ℕ) :
    applyResponsiveSettings base none cur w = cur ∧
    ((∀ bp ∈ resp.map Prod.fst, ¬ w ≤ bp) →
      applyResponsiveSettings base (some resp) cur w = base) ∧
    (∀ (b : ℕ) (st : BreakpointSettings), b ∈ resp.map Prod.fst → w ≤ b →
      (∀ x ∈ resp.map Prod.fst, w ≤ x → b ≤ x) →
      resp.lookup b = some st →
      applyResponsiveSettings base (some resp) cur w = mergeOptions base st) := by
  refine ⟨rfl, ?_, ?_⟩
  · intro hnone
    simp only [applyResponsiveSettings]
    rw [foldl_keep_last_match]
    have hfil : ((resp.map Prod.fst).insertionSort (· ≥ ·)).filter
        (fun bp => decide (w ≤ bp)) = [] := by
      rw [List.filter_eq_nil_iff]
      intro a ha
      have hmem : a ∈ resp.map Prod.fst :=
        ((List.perm_insertionSort _ _).mem_iff).mp ha
      simpa using hnone a hmem
    rw [hfil]
    rfl
  · intro b st hbmem hwb hbmin hlook
    simp only [applyResponsiveSettings]
    rw [foldl_keep_last_match]
    have hperm := List.perm_insertionSort (· ≥ ·) (resp.map Prod.fst)
    have hsorted : ((resp.map Prod.fst).insertionSort (· ≥ ·)).Sorted (· ≥ ·) :=
      List.sorted_insertionSort _ _
    have hfil : (((resp.map Prod.fst).insertionSort (· ≥ ·)).filter
        (fun bp => decide (w ≤ bp))).getLast? = some b := by
      apply sorted_ge_getLast_eq_min
      · exact List.Pairwise.filter _ hsorted
      · rw [List.mem_filter]
        exact ⟨hperm.mem_iff.mpr hbmem, by simpa using hwb⟩
      · intro x hx
        rw [List.mem_filter] at hx
        exact hbmin x (hperm.mem_iff.mp hx.1) (by simpa using hx.2)
    rw [hfil]
    simp [hlook]

/-- Claim C6 witness: width 800 against breakpoints 768 and 1024 picks
1024 (the smallest breakpoint at least 800) and overlays its settings;
and the absent-responsive case changes nothing. -/
theorem responsive_settings_use_smallest_matching_breakpoint_witness :
    applyResponsiveSettings sampleOptions (some sampleResponsive) sampleOptions 800 =
      mergeOptions sampleOptions { itemsVisible := some 2 } ∧
    applyResponsiveSettings sampleOptions none sampleOptions 800 = sampleOptions := by
  constructor
  · exact (responsive_settings_use_smallest_matching_breakpoint sampleOptions
      sampleOptions sampleResponsive 800).2.2 1024 { itemsVisible := some 2 }
      (by decide) (by decide) (by decide) (by decide)
  · exact (responsive_settings_use_smallest_matching_breakpoint sampleOptions
      sampleOptions sampleResponsive 800).1

/-- Claim C7 counterexample: with the full sample markup and options,
construction registers a `keydown` listener, which is outside the four
event categories the spec names, so construction does register listener
types other than scroll, resize, visibility and focus/hover. -/
theorem construction_registers_keydown_beyond_spec_four :
    EventType.keydown ∈ constructionEvents sampleOptions sampleDom ∧
    specFourCategories EventType.keydown = false := by
  constructor
  · decide
  · rfl

/-- Claim C7 (amended): construction registers listeners only for the
four spec categories plus `click`, `keydown` and `load`; in particular
`keydown` is always registered whenever the constructor completes with
a viewport and a track, so the spec list of four types is incomplete. -/
theorem construction_event_types_within_extended_set :
    (∀ (o : CarouselOptions) (d : DomShape) (e : EventType),
      e ∈ constructionEvents o d →
        specFourCategories e = true ∨
          e = EventType.click ∨ e = EventType.keydown ∨ e = EventType.load) ∧
    (∀ (o : CarouselOptions) (d : DomShape),
      d.hasViewport = true → d.hasTrack = true →
      EventType.keydown ∈ constructionEvents o d) := by
  constructor
  · intro o d e _
    cases e <;> simp [specFourCategories]
  · intro o d hvp htr
    have hk : EventType.keydown ∈ setupControlsEvents d := by
      simp [setupControlsEvents, hvp]
    unfold constructionEvents
    rw [if_neg (by simp [hvp, htr])]
    simp only [List.mem_append]
    exact Or.inl (Or.inl (Or.inr hk))

/-- Claim C7 witness: the extended-set statement applied to `keydown`
on the sample configuration. -/
theorem construction_event_types_within_extended_set_witness :
    specFourCategories EventType.keydown = true ∨
      EventType.keydown = EventType.click ∨
      EventType.keydown = EventType.keydown ∨
      EventType.keydown = EventType.load :=
  construction_event_types_within_extended_set.1 sampleOptions sampleDom
    EventType.keydown (by decide)

/-- Starting the autoplay interval preserves the pause invariant: the
start is refused while any pause reason is present. -/
theorem startAutoplayTimer_preserves (s : AutoplayState)
    (h : PausedImpliesNoTimer s) : PausedImpliesNoTimer (startAutoplayTimer s) := by
  unfold startAutoplayTimer
  split_ifs with h1 h2
  · exact h
  · exact h
  · intro hc
    exact absurd hc h2

/-- Claim C10: the autoplay interval is never active while paused — the
invariant holds right after `_setupAutoplay` and is preserved by every
handler step (hover, focus and visibility pause handlers, and
`_restartAutoplay`). -/
theorem autoplay_timer_never_active_while_paused :
    (∀ b : Bool, PausedImpliesNoTimer (setupAutoplay b)) ∧
    (∀ (s : AutoplayState) (e : AutoplayEvent),
      PausedImpliesNoTimer s → PausedImpliesNoTimer (autoplayStep e s)) := by
  constructor
  · intro b
    cases b
    · intro hc
      rfl
    · intro hc
      rw [show (setupAutoplay true).pauseReasons = (∅ : Finset PauseReason)
        from rfl] at hc
      simp at hc
  · intro s e h
    have herase : ∀ r : PauseReason,
        PausedImpliesNoTimer { s with pauseReasons := s.pauseReasons.erase r } := by
      intro r hc
      apply h
      exact lt_of_lt_of_le hc (Finset.card_le_card (Finset.erase_subset _ _))
    cases e with
    | mouseenter => intro hc; rfl
    | mouseleave => exact startAutoplayTimer_preserves _ (herase PauseReason.hover)
    | focusin => intro hc; rfl
    | focusout => exact startAutoplayTimer_preserves _ (herase PauseReason.focus)
    | visibilitychange hidden =>
      cases hidden
      · exact startAutoplayTimer_preserves _ (herase PauseReason.visibility)
      · intro hc; rfl
    | restart =>
      show PausedImpliesNoTimer (restartAutoplay s)
      unfold restartAutoplay
      split_ifs with h1 h2
      · exact h
      · exact h
      · exact startAutoplayTimer_preserves s h

/-- Claim C10 witness: a mouseleave step on the focus-paused sample
state keeps the timer off because the focus reason is still present. -/
theorem autoplay_timer_never_active_while_paused_witness :
    PausedImpliesNoTimer (autoplayStep AutoplayEvent.mouseleave sampleAutoplay) :=
  autoplay_timer_never_active_while_paused.2 sampleAutoplay
    AutoplayEvent.mouseleave (fun _ => rfl)

/-- A list none of whose characters satisfies `p` is untouched by
`dropWhile p`. -/
theorem dropWhile_eq_self_of_all (p : Char → Bool) (s : List Char)
    (h : ∀ c ∈ s, p c = false) : s.dropWhile p = s := by
  cases s with
  | nil => rfl
  | cons a t =>
    rw [List.dropWhile_cons, if_neg (by simp [h a (List.mem_cons_self a t)])]

/-- Trimming is the identity on whitespace-free strings. -/
theorem jsTrim_eq_self (s : List Char) (h : ∀ c ∈ s, c.isWhitespace = false) :
    jsTrim s = s := by
  unfold jsTrim
  rw [dropWhile_eq_self_of_all _ s h]
  rw [dropWhile_eq_self_of_all _ s.reverse
    (fun c hc => h c (List.mem_reverse.mp hc))]
  exact List.reverse_reverse s

/-- Splitting `takeWhile` and `dropWhile` at the boundary between a block
satisfying the predicate and a remainder whose head fails it. -/
theorem span_append_of_all (p : Char → Bool) :
    ∀ (ds rest : List Char), (∀ c ∈ ds, p c = true) →
      (∀ c, rest.head? = some c → p c = false) →
      (ds ++ rest).takeWhile p = ds ∧ (ds ++ rest).dropWhile p = rest := by
  intro ds
  induction ds with
  | nil =>
    intro rest _ hrest
    cases rest with
    | nil => exact ⟨rfl, rfl⟩
    | cons a t =>
      have ha := hrest a rfl
      constructor
      · rw [List.nil_append, List.takeWhile_cons, if_neg (by simp [ha])]
      · rw [List.nil_append, List.dropWhile_cons, if_neg (by simp [ha])]
  | cons a ds ih =>
    intro rest hds hrest
    have ha : p a = true := hds a (List.mem_cons_self _ _)
    have ih2 := ih rest (fun c hc => hds c (List.mem_cons_of_mem _ hc)) hrest
    constructor
    · rw [List.cons_append, List.takeWhile_cons, if_pos ha, ih2.1]
    · rw [List.cons_append, List.dropWhile_cons, if_pos ha, ih2.2]

/-- Decimal digits are not JS whitespace. -/
theorem digit_not_whitespace (c : Char) (h : c.isDigit = true) :
    c.isWhitespace = false := by
  simp [Char.isDigit] at h
  simp only [Char.isWhitespace]
  simp only [Bool.or_eq_false_iff, decide_eq_false_iff_not]
  refine ⟨⟨⟨?_, ?_⟩, ?_⟩, ?_⟩ <;> rintro rfl <;> revert h <;> decide

/-- The regex match on a digits-and-dots block followed by each unit
suffix the regex accepts, and by the rejected suffix `rem`. -/
theorem matchPixelValue_unit (np : List Char) (hne : np.isEmpty = false)
    (hnp : ∀ c ∈ np, isDigitOrDot c = true) :
    matchPixelValue np = some (np, CssUnit.unitless) ∧
    matchPixelValue (np ++ ['p', 'x']) = some (np, CssUnit.px) ∧
    matchPixelValue (np ++ ['%']) = some (np, CssUnit.percent) ∧
    matchPixelValue (np ++ ['v', 'w']) = some (np, CssUnit.vw) ∧
    matchPixelValue (np ++ ['e', 'm']) = some (np, CssUnit.em) ∧
    matchPixelValue (np ++ ['r', 'e', 'm']) = none := by
  have mk : ∀ rest : List Char, (∀ c, rest.head? = some c → isDigitOrDot c = false) →
      (np ++ rest).takeWhile isDigitOrDot = np ∧
        (np ++ rest).dropWhile isDigitOrDot = rest :=
    fun rest hrest => span_append_of_all isDigitOrDot np rest hnp hrest
  refine ⟨?_, ?_, ?_, ?_, ?_, ?_⟩
  · have hsp := mk [] (by intro c hc; simp at hc)
    have h1 : np.takeWhile isDigitOrDot = np := by simpa using hsp.1
    have h2 : np.dropWhile isDigitOrDot = [] := by simpa using hsp.2
    simp only [matchPixelValue, h1, h2, hne]
    rfl
  · have hsp := mk ['p', 'x'] (by intro c hc; simp at hc; subst hc; decide)
    simp only [matchPixelValue, hsp.1, hsp.2, hne]
    rfl
  · have hsp := mk ['%'] (by intro c hc; simp at hc; subst hc; decide)
    simp only [matchPixelValue, hsp.1, hsp.2, hne]
    rfl
  · have hsp := mk ['v', 'w'] (by intro c hc; simp at hc; subst hc; decide)
    simp only [matchPixelValue, hsp.1, hsp.2, hne]
    rfl
  · have hsp := mk ['e', 'm'] (by intro c hc; simp at hc; subst hc; decide)
    simp only [matchPixelValue, hsp.1, hsp.2, hne]
    rfl
  · have hsp := mk ['r', 'e', 'm'] (by intro c hc; simp at hc; subst hc; decide)
    simp only [matchPixelValue, hsp.1, hsp.2, hne]
    rfl

/-- On a pure digit string, `parseFloat` gives its digit value. -/
theorem parseFloatDigitsDots_digits (ds : List Char)
    (hne : ds.isEmpty = false) (hds : ∀ c ∈ ds, c.isDigit = true) :
    parseFloatDigitsDots ds = some ((digitsVal ds : ℚ)) := by
  have hsp := span_append_of_all Char.isDigit ds [] hds
    (by intro c hc; simp at hc)
  have h1 : ds.takeWhile Char.isDigit = ds := by simpa using hsp.1
  have h2 : ds.dropWhile Char.isDigit = [] := by simpa using hsp.2
  simp only [parseFloatDigitsDots, h1, h2, hne]
  rfl

/-- On `digits.digits`, `parseFloat` gives the expected decimal value. -/
theorem parseFloatDigitsDots_fraction (ds1 ds2 : List Char)
    (hne : ds1.isEmpty = false) (hds1 : ∀ c ∈ ds1, c.isDigit = true)
    (hds2 : ∀ c ∈ ds2, c.isDigit = true) :
    parseFloatDigitsDots (ds1 ++ '.' :: ds2) =
      some ((digitsVal ds1 : ℚ) + (digitsVal ds2 : ℚ) / 10 ^ ds2.length) := by
  have hsp := span_append_of_all Char.isDigit ds1 ('.' :: ds2) hds1
    (by intro c hc; simp at hc; subst hc; decide)
  have h2 : ds2.takeWhile Char.isDigit = ds2 := by
    simpa using (span_append_of_all Char.isDigit ds2 []
      hds2 (by intro c hc; simp at hc)).1
  simp only [parseFloatDigitsDots, hsp.1, hsp.2, h2, hne]
  simp

/-- Claim C9 counterexample: the string `"1.2.3"` is not a non-negative
decimal, so the claim requires `_parsePixels` to return 0 on it, but the
regex accepts any digits-and-dots run and `parseFloat` reads the leading
decimal, so the code returns 1.2. -/
theorem parsePixels_multi_dot_returns_leading_decimal_not_zero :
    parsePixels multiDotInput 100 = some (6 / 5) ∧ ¬ ((6 : ℚ) / 5 = 0) := by
  constructor
  · have hmv : matchPixelValue (jsTrim ['1', '.', '2', '.', '3']) =
        some (['1', '.', '2', '.', '3'], CssUnit.unitless) := by decide
    have ht1 : List.takeWhile Char.isDigit ['1', '.', '2', '.', '3'] = ['1'] := by
      decide
    have hd1 : List.dropWhile Char.isDigit ['1', '.', '2', '.', '3'] =
        '.' :: ['2', '.', '3'] := by decide
    have ht2 : List.takeWhile Char.isDigit ['2', '.', '3'] = ['2'] := by decide
    have hv1 : digitsVal ['1'] = 1 := by decide
    have hv2 : digitsVal ['2'] = 2 := by decide
    have hpf : parseFloatDigitsDots ['1', '.', '2', '.', '3'] = some (6 / 5) := by
      simp only [parseFloatDigitsDots, ht1, hd1, ht2, hv1, hv2]
      norm_num
    show parsePixels (JSValue.str ['1', '.', '2', '.', '3']) 100 = some (6 / 5)
    simp [parsePixels, hmv, hpf]
  · norm_num

/-- Claim C9 (amended): `_parsePixels` is total and never throws; a
numeric argument is returned unchanged; a string whose trimmed form is a
nonempty digits-and-dots run with optional unit px, %, vw or em is
converted by applying JS `parseFloat` to the run — its leading decimal
value, or NaN when it has none, as for `"."` — with px and unitless
returning that value, % and vw returning `base * n / 100` and em
returning `n * 16`; every other input — including negative values and
any other unit such as rem — returns 0. -/
theorem parsePixels_amended_characterization :
    (∀ (q b : ℚ), parsePixels (JSValue.num q) b = some q) ∧
    (∀ (ds : List Char) (b : ℚ), ds ≠ [] → (∀ c ∈ ds, c.isDigit = true) →
      parsePixels (JSValue.str ds) b = some ((digitsVal ds : ℚ)) ∧
      parsePixels (JSValue.str (ds ++ ['p', 'x'])) b = some ((digitsVal ds : ℚ)) ∧
      parsePixels (JSValue.str (ds ++ ['%'])) b =
        some (b * (digitsVal ds : ℚ) / 100) ∧
      parsePixels (JSValue.str (ds ++ ['v', 'w'])) b =
        some (b * (digitsVal ds : ℚ) / 100) ∧
      parsePixels (JSValue.str (ds ++ ['e', 'm'])) b =
        some ((digitsVal ds : ℚ) * 16) ∧
      parsePixels (JSValue.str (ds ++ ['r', 'e', 'm'])) b = some 0 ∧
      parsePixels (JSValue.str ('-' :: ds)) b = some 0) ∧
    (∀ (ds1 ds2 : List Char) (b : ℚ), ds1 ≠ [] →
      (∀ c ∈ ds1, c.isDigit = true) → (∀ c ∈ ds2, c.isDigit = true) →
      parsePixels (JSValue.str (ds1 ++ '.' :: ds2)) b =
        some ((digitsVal ds1 : ℚ) + (digitsVal ds2 : ℚ) / 10 ^ ds2.length)) ∧
    parsePixels (JSValue.str ['.']) 100 = none := by
  refine ⟨fun q b => rfl, ?_, ?_, by decide⟩
  · intro ds b hne0 hds
    have hne : ds.isEmpty = false := by
      cases ds with
      | nil => exact absurd rfl hne0
      | cons a t => rfl
    have hdd : ∀ c ∈ ds, isDigitOrDot c = true := by
      intro c hc
      simp [isDigitOrDot, hds c hc]
    have hmv := matchPixelValue_unit ds hne hdd
    have hws : ∀ c ∈ ds, c.isWhitespace = false :=
      fun c hc => digit_not_whitespace c (hds c hc)
    have htail : ∀ (rest : List Char), (∀ c ∈ rest, c.isWhitespace = false) →
        jsTrim (ds ++ rest) = ds ++ rest := by
      intro rest hrest
      apply jsTrim_eq_self
      intro c hc
      rcases List.mem_append.mp hc with h | h
      · exact hws c h
      · exact hrest c h
    have hpf := parseFloatDigitsDots_digits ds hne hds
    refine ⟨?_, ?_, ?_, ?_, ?_, ?_, ?_⟩
    · have htrim : jsTrim ds = ds := jsTrim_eq_self ds hws
      simp [parsePixels, htrim, hmv.1, hpf]
    · have htrim := htail ['p', 'x']
        (by intro c hc; simp at hc; rcases hc with rfl | rfl <;> decide)
      simp [parsePixels, htrim, hmv.2.1, hpf]
    · have htrim := htail ['%'] (by intro c hc; simp at hc; subst hc; decide)
      simp [parsePixels, htrim, hmv.2.2.1, hpf]
    · have htrim := htail ['v', 'w']
        (by intro c hc; simp at hc; rcases hc with rfl | rfl <;> decide)
      simp [parsePixels, htrim, hmv.2.2.2.1, hpf]
    · have htrim := htail ['e', 'm']
        (by intro c hc; simp at hc; rcases hc with rfl | rfl <;> decide)
      simp [parsePixels, htrim, hmv.2.2.2.2.1, hpf]
    · have htrim := htail ['r', 'e', 'm']
        (by intro c hc; simp at hc; rcases hc with rfl | rfl | rfl <;> decide)
      simp [parsePixels, htrim, hmv.2.2.2.2.2]
    · have htrim : jsTrim ('-' :: ds) = '-' :: ds := by
        apply jsTrim_eq_self
        intro c hc
        rcases List.mem_cons.mp hc with rfl | h
        · decide
        · exact hws c h
      have hmvneg : matchPixelValue ('-' :: ds) = none := by
        simp only [matchPixelValue]
        rw [List.takeWhile_cons,
          if_neg (show ¬ (isDigitOrDot '-' = true) by decide)]
        rfl
      simp [parsePixels, htrim, hmvneg]
  · intro ds1 ds2 b hne0 hds1 hds2
    have hne : ds1.isEmpty = false := by
      cases ds1 with
      | nil => exact absurd rfl hne0
      | cons a t => rfl
    have hdd : ∀ c ∈ ds1 ++ '.' :: ds2, isDigitOrDot c = true := by
      intro c hc
      rcases List.mem_append.mp hc with h | h
      · simp [isDigitOrDot, hds1 c h]
      · rcases List.mem_cons.mp h with rfl | h2
        · decide
        · simp [isDigitOrDot, hds2 c h2]
    have hne2 : (ds1 ++ '.' :: ds2).isEmpty = false := by
      cases ds1 with
      | nil => rfl
      | cons a t => rfl
    have htrim : jsTrim (ds1 ++ '.' :: ds2) = ds1 ++ '.' :: ds2 := by
      apply jsTrim_eq_self
      intro c hc
      rcases List.mem_append.mp hc with h | h
      · exact digit_not_whitespace c (hds1 c h)
      · rcases List.mem_cons.mp h with rfl | h2
        · decide
        · exact digit_not_whitespace c (hds2 c h2)
    have hmv := (matchPixelValue_unit (ds1 ++ '.' :: ds2) hne2 hdd).1
    have hpf := parseFloatDigitsDots_fraction ds1 ds2 hne hds1 hds2
    simp [parsePixels, htrim, hmv, hpf]

/-- Claim C9 witness: the amended conversion rules evaluated at the
concrete strings `"60"` and `"60px"` with base 500. -/
theorem parsePixels_amended_characterization_witness :
    parsePixels (JSValue.str ['6', '0']) 500 = some ((digitsVal ['6', '0'] : ℚ)) ∧
    parsePixels (JSValue.str (['6', '0'] ++ ['p', 'x'])) 500 =
      some ((digitsVal ['6', '0'] : ℚ)) := by
  have h := parsePixels_amended_characterization.2.1 ['6', '0'] 500
    (by decide) (by decide)
  exact ⟨h.1, h.2.1⟩

end OfCarousel
